import Mathlib

/-!
Verification of the cuerposonoro motion-to-music pipeline.

This file gives a shallow embedding, over the rationals, of the core of the
repository: the pose feature extractor (`vision_processor/features.py`), the
MIDI/MPE expression mapper (`vision_processor/midi_sender.py`) and the OSC
emission adapter (`vision_processor/osc_sender.py`), and proves properties of
that embedding.

Modelling conventions:
- Python floats are modelled as rationals (`ℚ`); decimal literals are exact.
- `math.sqrt` is kept abstract: the feature extractor is parametrised by a
  function `sq : ℚ → ℚ` standing for `fun d => Real.sqrt d` applied to the
  squared norm; theorems that need it assume only `0 ≤ sq d` for `0 ≤ d`.
- Python dicts with string keys are association lists in insertion order.
- A Python expression that can raise (the division in `_calculate_hand_y`)
  is modelled as an `Option`, `none` standing for the raised exception.
- Python `int(x)` (truncation toward zero) is `pyInt`.
-/

/-- Python `int()` on a float: truncation toward zero. -/
def pyInt (q : ℚ) : ℤ :=
  if q < 0 then -(Int.floor (-q)) else Int.floor q

/-- Python `d.get(key, default)` on a string-keyed dict of floats. -/
def dget (d : List (String × ℚ)) (key : String) (dflt : ℚ) : ℚ :=
  (d.lookup key).getD dflt

/-- One MediaPipe landmark: `{x, y, z, visibility}`. -/
structure Landmark where
  x : ℚ
  y : ℚ
  z : ℚ
  visibility : ℚ
deriving DecidableEq

/-- Python `landmarks[i]`; every access in the embedded code is made under the
33-landmark guard with indices below 33, so an out-of-range default is never
reached in the modelled paths. -/
def getLm (l : List Landmark) (i : ℕ) : Landmark :=
  l.getD i ⟨0, 0, 0, 0⟩

/-- State of a `FeatureExtractor` instance: the smoothing factor and the
previously returned (smoothed) feature dict. -/
structure ExtractorState where
  smoothing_factor : ℚ
  prev_features : Option (List (String × ℚ))
deriving DecidableEq

/-- A `FeatureExtractor` as built by `__init__`. -/
def initExtractor : ExtractorState :=
  { smoothing_factor := 0.3, prev_features := none }

/-- Embedding of `FeatureExtractor._calculate_energy`. -/
def calculate_energy (sq : ℚ → ℚ) (landmarks : List Landmark)
    (prev_landmarks : Option (List Landmark)) : ℚ :=
  match prev_landmarks with
  | none => 0.0
  | some prevL =>
    let key_indices : List ℕ := [0, 15, 16, 27, 28]
    let total_velocity := key_indices.foldl (fun total idx =>
      if idx < landmarks.length ∧ idx < prevL.length then
        let dx := (getLm landmarks idx).x - (getLm prevL idx).x
        let dy := (getLm landmarks idx).y - (getLm prevL idx).y
        total + sq (dx ^ 2 + dy ^ 2)
      else total) 0.0
    min (total_velocity * 10) 1.0

/-- Embedding of `FeatureExtractor._calculate_symmetry`. -/
def calculate_symmetry (landmarks : List Landmark) : ℚ :=
  let left_wrist := getLm landmarks 15
  let right_wrist := getLm landmarks 16
  let left_dev := 0.5 - left_wrist.x
  let right_dev := right_wrist.x - 0.5
  let symmetry := right_dev - left_dev
  max (-1.0) (min 1.0 (symmetry * 2))

/-- Embedding of `FeatureExtractor._calculate_smoothness`, as the total
function it computes on its non-raising domain.  Unlike `_calculate_energy`,
the source indexes `prev_landmarks[15]` and `prev_landmarks[16]` with no
length guard, so Python raises `IndexError` when a previous list is shorter
than 17; `calculate_smoothness?` below records that behaviour, and theorems
about valid calls restrict themselves to the `smoothness_defined` domain on
which the two agree. -/
def calculate_smoothness (sq : ℚ → ℚ) (landmarks : List Landmark)
    (prev_landmarks : Option (List Landmark)) : ℚ :=
  match prev_landmarks with
  | none => 0.5
  | some prevL =>
    let wrist_indices : List ℕ := [15, 16]
    let total_jerk := wrist_indices.foldl (fun total idx =>
      let dx := (getLm landmarks idx).x - (getLm prevL idx).x
      let dy := (getLm landmarks idx).y - (getLm prevL idx).y
      total + sq (dx ^ 2 + dy ^ 2)) 0.0
    max 0.0 (1.0 - min (total_jerk * 5) 1.0)

/-- Faithful embedding of `FeatureExtractor._calculate_smoothness` with its
error path: `none` models the `IndexError` Python raises when a non-None
previous list is too short for the unguarded `prev_landmarks[15]` and
`prev_landmarks[16]` reads. -/
def calculate_smoothness? (sq : ℚ → ℚ) (landmarks : List Landmark)
    (prev_landmarks : Option (List Landmark)) : Option ℚ :=
  match prev_landmarks with
  | none => some 0.5
  | some prevL =>
    if prevL.length < 17 then none
    else
      let wrist_indices : List ℕ := [15, 16]
      let total_jerk := wrist_indices.foldl (fun total idx =>
        let dx := (getLm landmarks idx).x - (getLm prevL idx).x
        let dy := (getLm landmarks idx).y - (getLm prevL idx).y
        total + sq (dx ^ 2 + dy ^ 2)) 0.0
      some (max 0.0 (1.0 - min (total_jerk * 5) 1.0))

/-- The previous-landmark inputs on which `_calculate_smoothness` (and hence
a valid `calculate` call) does not raise: absent, or long enough for the
wrist reads at indices 15 and 16. -/
def smoothness_defined (prev_landmarks : Option (List Landmark)) : Prop :=
  ∀ l, prev_landmarks = some l → 17 ≤ l.length

/-- Embedding of `FeatureExtractor._calculate_arm_angle`. -/
def calculate_arm_angle (landmarks : List Landmark) : ℚ :=
  let arm_elevation := fun (shoulder wrist : Landmark) =>
    max 0.0 (min 1.0 (shoulder.y - wrist.y + 0.5))
  let left_angle := arm_elevation (getLm landmarks 11) (getLm landmarks 15)
  let right_angle := arm_elevation (getLm landmarks 12) (getLm landmarks 16)
  (left_angle + right_angle) / 2

/-- Embedding of `FeatureExtractor._calculate_vertical_extension`. -/
def calculate_vertical_extension (landmarks : List Landmark) : ℚ :=
  let ankle_y := ((getLm landmarks 27).y + (getLm landmarks 28).y) / 2
  let height := ankle_y - (getLm landmarks 0).y
  max 0.0 (min 1.0 (height * 1.5))

/-- Embedding of `FeatureExtractor._calculate_hand_y`.  The source divides by
`max_y - min_y` with no guard; Python raises `ZeroDivisionError` when that
difference is zero, modelled here as `none`. -/
def calculate_hand_y (landmarks : List Landmark) (side : String) : Option ℚ :=
  let wrist_idx : ℕ := if side = "right" then 16 else 15
  let hip_idx : ℕ := if side = "right" then 24 else 23
  let wrist := getLm landmarks wrist_idx
  let hip := getLm landmarks hip_idx
  let nose := getLm landmarks 0
  let min_y := nose.y - 0.2
  let max_y := hip.y + 0.1
  if max_y - min_y = 0 then none
  else some (max 0.0 (min 1.0 ((max_y - wrist.y) / (max_y - min_y))))

/-- The feature dict built by `FeatureExtractor.calculate` for a valid frame,
before smoothing (the dict literal at the top of `calculate`). -/
def raw_features (sq : ℚ → ℚ) (landmarks : List Landmark)
    (prev_landmarks : Option (List Landmark)) : List (String × ℚ) :=
  [("energy", calculate_energy sq landmarks prev_landmarks),
   ("symmetry", calculate_symmetry landmarks),
   ("smoothness", calculate_smoothness sq landmarks prev_landmarks),
   ("armAngle", calculate_arm_angle landmarks),
   ("verticalExtension", calculate_vertical_extension landmarks)]

/-- Embedding of `FeatureExtractor._smooth_features`. -/
def smooth_features (st : ExtractorState) (features : List (String × ℚ)) :
    List (String × ℚ) × ExtractorState :=
  match st.prev_features with
  | none => (features, { st with prev_features := some features })
  | some prev =>
    let smoothed := features.map fun kv =>
      (kv.1, st.smoothing_factor * kv.2 +
             (1 - st.smoothing_factor) * dget prev kv.1 kv.2)
    (smoothed, { st with prev_features := some smoothed })

/-- Embedding of `FeatureExtractor._empty_features`. -/
def empty_features : List (String × ℚ) :=
  [("energy", 0.0),
   ("symmetry", 0.0),
   ("smoothness", 0.5),
   ("armAngle", 0.0),
   ("verticalExtension", 0.5),
   ("feetCenterX", 0.5),
   ("hipTilt", 0.0),
   ("kneeAngle", 1.0),
   ("rightHandY", 0.5),
   ("leftHandY", 0.5),
   ("rightHandJerk", 0.0),
   ("leftHandJerk", 0.0),
   ("rightArmVelocity", 0.0),
   ("leftArmVelocity", 0.0),
   ("rightElbowHipAngle", 0.0),
   ("leftElbowHipAngle", 0.0),
   ("headTilt", 0.0)]

/-- Embedding of `FeatureExtractor.calculate`.  The `landmarks` argument is
`Option` to model Python `None`; `not landmarks or len(landmarks) < 33` is
the emptiness-or-short guard.  On the valid path the call raises in Python
when `prev_landmarks` is a list shorter than 17 (see
`calculate_smoothness?`), so theorems about valid calls assume
`smoothness_defined prev_landmarks`. -/
def calculate (sq : ℚ → ℚ) (st : ExtractorState)
    (landmarks : Option (List Landmark))
    (prev_landmarks : Option (List Landmark)) :
    List (String × ℚ) × ExtractorState :=
  match landmarks with
  | none => (empty_features, st)
  | some ls =>
    if ls.isEmpty ∨ ls.length < 33 then (empty_features, st)
    else smooth_features st (raw_features sq ls prev_landmarks)

/-- One OSC message: an address and one float argument. -/
structure OscMessage where
  address : String
  value : ℚ
deriving DecidableEq

/-- One OSC bundle: the messages it contains (sent in a single transport
call, with an immediate timetag). -/
structure OscBundle where
  contents : List OscMessage
deriving DecidableEq

/-- Embedding of `OSCSender.send_features`: one `send_message` call per dict
entry, in dict order. -/
def send_features (features : List (String × ℚ)) : List OscMessage :=
  features.map fun kv => { address := "/motion/" ++ kv.1, value := kv.2 }

/-- Embedding of `OSCSender.send_bundle`: the same per-entry messages packed
into a single bundle. -/
def send_bundle (features : List (String × ℚ)) : OscBundle :=
  { contents := features.map fun kv =>
      { address := "/motion/" ++ kv.1, value := kv.2 } }

/-- MIDI/MPE events as sent by the low-level methods of `MidiSender`.  A
pitch-bend value is the pre-offset 0..16383 argument of `_pitch_bend`. -/
inductive MidiEvent where
  | note_on (note : ℤ) (velocity : ℤ) (channel : ℕ)
  | note_off (note : ℤ) (channel : ℕ)
  | pitch_bend (value : ℤ) (channel : ℕ)
  | channel_pressure (value : ℤ) (channel : ℕ)
  | control_change (control : ℕ) (value : ℤ) (channel : ℕ)
deriving DecidableEq, BEq

/-- The four chord names of `MidiSender.CHORDS`. -/
inductive ChordName where
  | I
  | IV
  | V
  | VI
deriving DecidableEq

/-- `MidiSender.CHORDS`: each chord is three MIDI note numbers. -/
def chords : ChordName → List ℤ
  | .I => [48, 52, 55]
  | .IV => [53, 57, 60]
  | .V => [55, 59, 62]
  | .VI => [57, 60, 64]

/-- `MidiSender.SCALE_NOTES`: C-major semitone offsets. -/
def SCALE_NOTES : List ℤ := [0, 2, 4, 5, 7, 9, 11]

/-- `MidiSender.JERK_THRESHOLD`. -/
def JERK_THRESHOLD : ℚ := 0.4

/-- `MidiSender.base_note_duration` (seconds). -/
def base_note_duration : ℚ := 0.3

/-- Mutable state of a `MidiSender` instance. -/
structure MidiState where
  current_chord : Option ChordName
  current_chord_notes : List ℤ
  melody_right_note : Option ℤ
  melody_left_note : Option ℤ
  melody_right_note_time : ℚ
  melody_left_note_time : ℚ
deriving DecidableEq

/-- A `MidiSender` as built by `__init__` (with an open port). -/
def initMidiState : MidiState :=
  { current_chord := none, current_chord_notes := [],
    melody_right_note := none, melody_left_note := none,
    melody_right_note_time := 0, melody_left_note_time := 0 }

/-- Embedding of `MidiSender._get_chord_from_position`: the linear scan over
`CHORD_ZONES` with half-open intervals, defaulting to chord I. -/
def get_chord_from_position (x : ℚ) : ChordName :=
  if 0.00 ≤ x ∧ x < 0.25 then .I
  else if 0.25 ≤ x ∧ x < 0.50 then .IV
  else if 0.50 ≤ x ∧ x < 0.75 then .V
  else if 0.75 ≤ x ∧ x < 1.00 then .VI
  else .I

/-- Embedding of `MidiSender._change_chord`: note-offs for the old chord
notes (zipped with the three chord channels), then note-ons for the new
triad at the knee-angle velocity. -/
def change_chord (new_chord : ChordName) (velocity_factor : ℚ)
    (st : MidiState) : List MidiEvent × MidiState :=
  let chord_channels : List ℕ := [1, 2, 3]
  let offs := List.zipWith (fun note ch => MidiEvent.note_off note ch)
    st.current_chord_notes chord_channels
  let notes := chords new_chord
  let velocity := max 1 (min 127 (pyInt (40 + velocity_factor * 87)))
  let ons := List.zipWith (fun note ch => MidiEvent.note_on note velocity ch)
    notes chord_channels
  (offs ++ ons,
   { st with current_chord := some new_chord, current_chord_notes := notes })

/-- Embedding of `MidiSender._apply_chord_expression`: pitch bend then
channel pressure on the three chord channels. -/
def apply_chord_expression (hip_tilt knee_angle : ℚ) : List MidiEvent :=
  let pb := max 0 (min 16383 (pyInt (8192 + hip_tilt * 4096)))
  let pressure := pyInt (knee_angle * 127)
  ([1, 2, 3].map fun ch => MidiEvent.pitch_bend pb ch) ++
  ([1, 2, 3].map fun ch => MidiEvent.channel_pressure pressure ch)

/-- Embedding of `MidiSender._update_chords`. -/
def update_chords (features : List (String × ℚ)) (st : MidiState) :
    List MidiEvent × MidiState :=
  let feet_x := dget features "feetCenterX" 0.5
  let hip_tilt := dget features "hipTilt" 0.0
  let knee_angle := dget features "kneeAngle" 1.0
  let new_chord := get_chord_from_position feet_x
  let r := if some new_chord ≠ st.current_chord
    then change_chord new_chord knee_angle st else ([], st)
  let e2 := if r.2.current_chord ≠ none
    then apply_chord_expression hip_tilt knee_angle else []
  (r.1 ++ e2, r.2)

/-- Embedding of `MidiSender._hand_y_to_note`. -/
def hand_y_to_note (hand_y : ℚ) (base_note : ℤ) : ℤ :=
  let scale_index := pyInt (hand_y * 7.99)
  let scale_index := max 0 (min 7 scale_index)
  if scale_index = 7 then base_note + 12
  else base_note + SCALE_NOTES.getD scale_index.toNat 0

/-- Embedding of `MidiSender._update_melody_hand`.  `current_note` is read
once at entry; the trailing pitch-bend step tests that local value, not the
possibly cleared state, exactly as in the source. -/
def update_melody_hand (side : String) (hand_y jerk arm_velocity elbow_angle : ℚ)
    (base_note : ℤ) (channel : ℕ) (current_time : ℚ) (st : MidiState) :
    List MidiEvent × MidiState :=
  let current_note := if side = "right" then st.melody_right_note
    else st.melody_left_note
  let note_start_time := if side = "right" then st.melody_right_note_time
    else st.melody_left_note_time
  let target_note := hand_y_to_note hand_y base_note
  let r :=
    if jerk > JERK_THRESHOLD then
      let velocity := max 1 (min 127 (pyInt (60 + arm_velocity * 67)))
      let offs := match current_note with
        | some n => [MidiEvent.note_off n channel]
        | none => []
      let st' := if side = "right"
        then { st with melody_right_note := some target_note,
                       melody_right_note_time := current_time }
        else { st with melody_left_note := some target_note,
                       melody_left_note_time := current_time }
      (offs ++ [MidiEvent.note_on target_note velocity channel], st')
    else
      match current_note with
      | some n =>
        if current_time - note_start_time > base_note_duration then
          let st' := if side = "right"
            then { st with melody_right_note := none }
            else { st with melody_left_note := none }
          ([MidiEvent.note_off n channel], st')
        else ([], st)
      | none => ([], st)
  let e2 := match current_note with
    | some _ =>
      let pb := max 0 (min 16383 (pyInt (8192 + elbow_angle * 2048)))
      [MidiEvent.pitch_bend pb channel]
    | none => []
  (r.1 ++ e2, r.2)

/-- Embedding of `MidiSender._update_melody`: right hand (base C3,
channel 4) then left hand (base C5, channel 5). -/
def update_melody (features : List (String × ℚ)) (current_time : ℚ)
    (st : MidiState) : List MidiEvent × MidiState :=
  let r1 := update_melody_hand "right"
    (dget features "rightHandY" 0.5)
    (dget features "rightHandJerk" 0.0)
    (dget features "rightArmVelocity" 0.0)
    (dget features "rightElbowHipAngle" 0.0)
    48 4 current_time st
  let r2 := update_melody_hand "left"
    (dget features "leftHandY" 0.5)
    (dget features "leftHandJerk" 0.0)
    (dget features "leftArmVelocity" 0.0)
    (dget features "leftElbowHipAngle" 0.0)
    72 5 current_time r1.2
  (r1.1 ++ r2.1, r2.2)

/-- Embedding of `MidiSender._update_global_expression`: CC74 from head
tilt, on the master channel. -/
def update_global_expression (features : List (String × ℚ)) : List MidiEvent :=
  let cc := max 0 (min 127 (pyInt (64 + dget features "headTilt" 0.0 * 63)))
  [MidiEvent.control_change 74 cc 0]

/-- Embedding of `MidiSender.update` with an open port: chords, then melody,
then global expression. -/
def update (features : List (String × ℚ)) (current_time : ℚ)
    (st : MidiState) : List MidiEvent × MidiState :=
  let r1 := update_chords features st
  let r2 := update_melody features current_time r1.2
  let e3 := update_global_expression features
  (r1.1 ++ r2.1 ++ e3, r2.2)

/-- Embedding of `MidiSender._all_notes_off` (used by `close`): CC123 on the
five chord and melody channels. -/
def all_notes_off : List MidiEvent :=
  [1, 2, 3, 4, 5].map fun ch => MidiEvent.control_change 123 0 ch

/-- Runs a sequence of `update` calls, each with its feature dict and its
`time.time()` value, collecting every emitted event in order. -/
def runUpdates (st : MidiState) :
    List (List (String × ℚ) × ℚ) → List MidiEvent × MidiState
  | [] => ([], st)
  | (f, t) :: rest =>
    let r := update f t st
    let rs := runUpdates r.2 rest
    (r.1 ++ rs.1, rs.2)

/-- Melody target note as the spec words it: `scaleIndex =
clamp(floor(handY * 7.99), 0, 7)`; index 7 is the octave, otherwise the
C-major offset at that index. -/
def spec_hand_y_to_note (hand_y : ℚ) (base_note : ℤ) : ℤ :=
  let scaleIndex := min 7 (max 0 (Int.floor (hand_y * 7.99)))
  if scaleIndex = 7 then base_note + 12
  else base_note + SCALE_NOTES.getD scaleIndex.toNat 0

/-- Channel of any MIDI event. -/
def eventChannel : MidiEvent → ℕ
  | .note_on _ _ c => c
  | .note_off _ c => c
  | .pitch_bend _ c => c
  | .channel_pressure _ c => c
  | .control_change _ _ c => c

/-- True exactly on note-on and note-off events. -/
def is_note_event : MidiEvent → Bool
  | .note_on _ _ _ => true
  | .note_off _ _ => true
  | _ => false

/-- The note-on and note-off events carried by the three chord channels. -/
def chord_note_events (evts : List MidiEvent) : List MidiEvent :=
  evts.filter fun e =>
    is_note_event e &&
    (eventChannel e == 1 || eventChannel e == 2 || eventChannel e == 3)

/-- Velocities of the note-on events on the three chord channels, in order. -/
def chord_note_on_velocities (evts : List MidiEvent) : List ℤ :=
  evts.filterMap fun e => match e with
    | .note_on _ v ch => if ch = 1 ∨ ch = 2 ∨ ch = 3 then some v else none
    | _ => none

/-- The events of a list that sit on one given channel. -/
def events_on_channel (ch : ℕ) (evts : List MidiEvent) : List MidiEvent :=
  evts.filter fun e => eventChannel e == ch

/-- True when the event is a note-on or note-off addressed to channel `ch`. -/
def touches (ch : ℕ) : MidiEvent → Bool
  | .note_on _ _ c => c == ch
  | .note_off _ c => c == ch
  | _ => false

/-- One step of the per-channel note protocol: the note currently sounding
on channel `ch` (or `none`), updated by one event; the outer `none` flags a
protocol violation (a second unmatched note-on, or a note-off for a note
that is not sounding). -/
def replayStep (ch : ℕ) (s : Option ℤ) : MidiEvent → Option (Option ℤ)
  | .note_on n _ c =>
    if c = ch then match s with
      | none => some (some n)
      | some _ => none
    else some s
  | .note_off n c =>
    if c = ch then match s with
      | some m => if m = n then some none else none
      | none => none
    else some s
  | _ => some s

/-- Replays a whole event list through the per-channel note protocol. -/
def replay (ch : ℕ) (s : Option ℤ) : List MidiEvent → Option (Option ℤ)
  | [] => some s
  | e :: rest => match replayStep ch s e with
    | none => none
    | some s' => replay ch s' rest

/-- The note a `MidiSender` state keeps sounding on each channel: the chord
triad notes on channels 1-3 (in `current_chord_notes` order) and the two
melody notes on channels 4 and 5. -/
def sounding (st : MidiState) (ch : ℕ) : Option ℤ :=
  if ch = 1 then st.current_chord_notes[0]?
  else if ch = 2 then st.current_chord_notes[1]?
  else if ch = 3 then st.current_chord_notes[2]?
  else if ch = 4 then st.melody_right_note
  else if ch = 5 then st.melody_left_note
  else none

/-- Whether every note-on of the list is followed, later in the list, by a
note-off for the same note on the same channel. -/
def all_ons_paired : List MidiEvent → Bool
  | [] => true
  | e :: rest =>
    (match e with
     | .note_on n _ c => rest.contains (.note_off n c)
     | _ => true) && all_ons_paired rest

/-- A stand-in for `math.sqrt` used to instantiate witnesses; any function
with `0 ≤ noSqrt d` would do, the witnessed facts do not depend on it. -/
def noSqrt : ℚ → ℚ := fun _ => 0

/-- A 33-landmark frame with every landmark at the frame centre. -/
def neutralFrame : List Landmark := List.replicate 33 ⟨0.5, 0.5, 0, 1⟩

/-- A 33-landmark frame on which `_calculate_hand_y` divides by zero for the
right side: nose at y = 0.2 and right hip at y = -0.1, so that
`min_y = 0.2 - 0.2 = 0` and `max_y = -0.1 + 0.1 = 0` (both differences are
also exact in binary floating point). -/
def degenerateFrame : List Landmark :=
  (List.replicate 33 ⟨0.5, 0.2, 0, 1⟩).set 24 ⟨0.5, -0.1, 0, 1⟩

/-- The neutral frame with the right wrist moved to x = 0.7, giving a raw
symmetry of 0.4. -/
def shiftedFrame : List Landmark := neutralFrame.set 16 ⟨0.7, 0.5, 0, 1⟩

/-- The melody note state of one hand, selected the way
`_update_melody_hand` selects it from `side`. -/
def melody_note (side : String) (st : MidiState) : Option ℤ :=
  if side = "right" then st.melody_right_note else st.melody_left_note

/-- The melody note start time of one hand. -/
def melody_time (side : String) (st : MidiState) : ℚ :=
  if side = "right" then st.melody_right_note_time else st.melody_left_note_time

/-- The MIDI channel `_update_melody` passes for one hand. -/
def hand_channel (side : String) : ℕ :=
  if side = "right" then 4 else 5

/-- The jerk feature key `_update_melody` reads for one hand. -/
def hand_jerk_key (side : String) : String :=
  if side = "right" then "rightHandJerk" else "leftHandJerk"

/-- The elbow-hip-angle feature key `_update_melody` reads for one hand. -/
def hand_elbow_key (side : String) : String :=
  if side = "right" then "rightElbowHipAngle" else "leftElbowHipAngle"

theorem pyInt_eq_floor {q : ℚ} (h : 0 ≤ q) : pyInt q = Int.floor q := by
  simp [pyInt, not_lt.mpr h]

theorem lookup_map_snd (g : String → ℚ → ℚ) (l : List (String × ℚ)) (k : String) :
    (l.map fun kv => (kv.1, g kv.1 kv.2)).lookup k = (l.lookup k).map fun v => g k v := by
  induction l with
  | nil => rfl
  | cons kv rest ih =>
    by_cases h : k = kv.1
    · subst h
      simp [List.lookup]
    · have hb : (k == kv.1) = false := beq_eq_false_iff_ne.mpr h
      simp [List.lookup, hb, ih]

/-- C3.  The claim asserts every numeric feature method is total, and in
particular that `_calculate_hand_y` returns a value in `[0, 1]` even when
`max_y = min_y`.  The code has no guard: at a frame with `nose.y = 0.2` and
right `hip.y = -0.1` the denominator `max_y - min_y` is exactly zero (also
in binary floating point) and Python raises `ZeroDivisionError`, modelled
here as `none`. -/
theorem c3_hand_y_division_by_zero :
    calculate_hand_y degenerateFrame "right" = none := by
  have h1 : getLm degenerateFrame 24 = ⟨0.5, -0.1, 0, 1⟩ := rfl
  have h2 : getLm degenerateFrame 0 = ⟨0.5, 0.2, 0, 1⟩ := rfl
  simp only [calculate_hand_y]
  norm_num [h1, h2]

/-- C1.  On a valid 33-landmark frame, `calculate` returns a mapping with
only the five entries `energy`, `symmetry`, `smoothness`, `armAngle` and
`verticalExtension`, whatever `math.sqrt` computes; in particular the
`feetCenterX` entry the claim requires is absent.  The repository's own test
(`test_returns_all_17_keys` in `tests/test_features.py`) requires all 17
keys, so the code contradicts its tests. -/
theorem c1_calculate_returns_only_five_keys (sq : ℚ → ℚ) :
    (calculate sq initExtractor (some neutralFrame) none).1.map Prod.fst =
      ["energy", "symmetry", "smoothness", "armAngle", "verticalExtension"] ∧
    (calculate sq initExtractor (some neutralFrame) none).1.lookup "feetCenterX"
      = none := by
  constructor <;> rfl

/-- C5.  `calculate(None)`, `calculate([])` and any call with fewer than 33
landmarks return exactly the documented 17-entry default mapping, and the
extractor state (hence `prev_features`) is returned untouched. -/
theorem c5_invalid_input_returns_defaults (sq : ℚ → ℚ) (st : ExtractorState)
    (landmarks prev_landmarks : Option (List Landmark))
    (h : landmarks = none ∨ ∃ ls, landmarks = some ls ∧ ls.length < 33) :
    calculate sq st landmarks prev_landmarks =
      ([("energy", 0.0), ("symmetry", 0.0), ("smoothness", 0.5),
        ("armAngle", 0.0), ("verticalExtension", 0.5), ("feetCenterX", 0.5),
        ("hipTilt", 0.0), ("kneeAngle", 1.0), ("rightHandY", 0.5),
        ("leftHandY", 0.5), ("rightHandJerk", 0.0), ("leftHandJerk", 0.0),
        ("rightArmVelocity", 0.0), ("leftArmVelocity", 0.0),
        ("rightElbowHipAngle", 0.0), ("leftElbowHipAngle", 0.0),
        ("headTilt", 0.0)], st) := by
  rcases h with h | ⟨ls, rfl, hlen⟩
  · subst h; rfl
  · simp only [calculate]
    rw [if_pos (Or.inr hlen)]
    rfl

/-- C5 witness: a 32-landmark frame takes the default path. -/
theorem c5_invalid_input_returns_defaults_witness :
    (List.replicate 32 (⟨0, 0, 0, 0⟩ : Landmark)).length < 33 ∧
    calculate noSqrt initExtractor
      (some (List.replicate 32 (⟨0, 0, 0, 0⟩ : Landmark))) none =
      ([("energy", 0.0), ("symmetry", 0.0), ("smoothness", 0.5),
        ("armAngle", 0.0), ("verticalExtension", 0.5), ("feetCenterX", 0.5),
        ("hipTilt", 0.0), ("kneeAngle", 1.0), ("rightHandY", 0.5),
        ("leftHandY", 0.5), ("rightHandJerk", 0.0), ("leftHandJerk", 0.0),
        ("rightArmVelocity", 0.0), ("leftArmVelocity", 0.0),
        ("rightElbowHipAngle", 0.0), ("leftElbowHipAngle", 0.0),
        ("headTilt", 0.0)], initExtractor) :=
  ⟨by decide,
   c5_invalid_input_returns_defaults noSqrt initExtractor _ none
     (Or.inr ⟨_, rfl, by decide⟩)⟩

/-- C9.  `send_features` and `send_bundle` produce the identical list of
(address, value) pairs — `/motion/<key>` with the float value — the bundle
differing only in transport framing; an empty mapping yields zero messages
in both forms. -/
theorem c9_osc_send_forms_identical (features : List (String × ℚ)) :
    (send_bundle features).contents = send_features features ∧
    send_features [] = [] ∧ (send_bundle []).contents = [] :=
  ⟨rfl, rfl, rfl⟩

theorem max_min_comm_int (z : ℤ) : max 0 (min 7 z) = min 7 (max 0 z) := by
  omega

/-- C8.  For `handY ∈ [0, 1]`, `_hand_y_to_note` computes exactly the
spec's diatonic quantization (`clamp(floor(handY * 7.99), 0, 7)`, octave at
index 7, otherwise the C-major offset), and `handY = 0` yields the base
note itself. -/
theorem c8_hand_y_to_note_matches_spec (hand_y : ℚ) (base_note : ℤ)
    (h0 : 0 ≤ hand_y) (h1 : hand_y ≤ 1) :
    hand_y_to_note hand_y base_note = spec_hand_y_to_note hand_y base_note ∧
    hand_y_to_note 0 base_note = base_note := by
  constructor
  · have hq : (0 : ℚ) ≤ hand_y * 7.99 := by positivity
    simp only [hand_y_to_note, spec_hand_y_to_note, pyInt_eq_floor hq,
      max_min_comm_int]
  · have hz : pyInt ((0 : ℚ) * 7.99) = 0 := by norm_num [pyInt]
    simp only [hand_y_to_note]
    rw [hz]
    have hclamp : (0 : ℤ) ⊔ 7 ⊓ 0 = 0 := by omega
    rw [hclamp]
    simp [SCALE_NOTES]

/-- C8 witness at `handY = 1/2`, base note 48. -/
theorem c8_hand_y_to_note_matches_spec_witness :
    (0 ≤ (1/2 : ℚ)) ∧ ((1/2 : ℚ) ≤ 1) ∧
    (hand_y_to_note (1/2) 48 = spec_hand_y_to_note (1/2) 48 ∧
     hand_y_to_note 0 48 = 48) :=
  ⟨by norm_num, by norm_num,
   c8_hand_y_to_note_matches_spec (1/2) 48 (by norm_num) (by norm_num)⟩

theorem calculate_valid (sq : ℚ → ℚ) (st : ExtractorState) (ls : List Landmark)
    (prev_landmarks : Option (List Landmark)) (h : 33 ≤ ls.length) :
    calculate sq st (some ls) prev_landmarks =
      smooth_features st (raw_features sq ls prev_landmarks) := by
  simp only [calculate]
  rw [if_neg]
  rintro (he | hl)
  · have := List.isEmpty_iff.mp he
    subst this
    simp at h
  · omega

theorem calculate_smoothness_eq_of_defined (sq : ℚ → ℚ)
    (landmarks : List Landmark) (prev_landmarks : Option (List Landmark))
    (h : smoothness_defined prev_landmarks) :
    calculate_smoothness? sq landmarks prev_landmarks
      = some (calculate_smoothness sq landmarks prev_landmarks) := by
  cases prev_landmarks with
  | none => rfl
  | some l =>
    have hl := h l rfl
    simp only [calculate_smoothness?, calculate_smoothness]
    rw [if_neg (by omega)]

/-- C6.  One valid `calculate` call, from an arbitrary extractor state with
smoothing factor `α`.  When no previous output is stored (the first valid
call), the output is the raw feature dict and becomes the stored seed.
When a previous output `p` is stored — the situation of every subsequent
valid call, where `p` is the prior valid call's returned output, since both
branches store exactly what they return — every key of the output is
`α·raw + (1−α)·p`, blending with the stored prior output (not with prior
raw values), and the new output is stored in turn.  The
`smoothness_defined` hypothesis keeps the statement on the domain where
`_calculate_smoothness` does not raise (`calculate_smoothness?` is `some`
there). -/
theorem c6_smoothing_recurrence (sq : ℚ → ℚ) (α : ℚ) (st : ExtractorState)
    (frame : List Landmark) (prev_landmarks : Option (List Landmark))
    (hα : st.smoothing_factor = α) (hvalid : 33 ≤ frame.length)
    (hdef : smoothness_defined prev_landmarks) :
    (st.prev_features = none →
      (calculate sq st (some frame) prev_landmarks).1
        = raw_features sq frame prev_landmarks ∧
      (calculate sq st (some frame) prev_landmarks).2.prev_features
        = some (raw_features sq frame prev_landmarks)) ∧
    (∀ p, st.prev_features = some p →
      (∀ k rv pv,
        (raw_features sq frame prev_landmarks).lookup k = some rv →
        p.lookup k = some pv →
        (calculate sq st (some frame) prev_landmarks).1.lookup k
          = some (α * rv + (1 - α) * pv)) ∧
      (calculate sq st (some frame) prev_landmarks).2.prev_features
        = some (calculate sq st (some frame) prev_landmarks).1) := by
  have hsm := calculate_smoothness_eq_of_defined sq frame prev_landmarks hdef
  rw [calculate_valid sq st frame prev_landmarks hvalid]
  constructor
  · intro hnone
    constructor <;> simp [smooth_features, hnone]
  · intro p hp
    constructor
    · intro k rv pv hrv hpv
      simp only [smooth_features, hp]
      have hmap := lookup_map_snd
        (fun key v => st.smoothing_factor * v +
          (1 - st.smoothing_factor) * dget p key v)
        (raw_features sq frame prev_landmarks) k
      simp only at hmap
      rw [hmap, hrv]
      simp [dget, hpv, hα]
    · simp [smooth_features, hp]

/-- C6 witness: one call from a state already holding a previous output
whose symmetry entry (1/10) differs from any raw value it ever produced;
the new symmetry output is `0.3·(2/5) + 0.7·(1/10)`. -/
theorem c6_smoothing_recurrence_witness :
    ((⟨0.3, some [("symmetry", (1/10 : ℚ))]⟩ : ExtractorState).smoothing_factor
      = 0.3) ∧
    (33 ≤ shiftedFrame.length) ∧
    smoothness_defined none ∧
    ((⟨0.3, some [("symmetry", (1/10 : ℚ))]⟩ : ExtractorState).prev_features
      = some [("symmetry", (1/10 : ℚ))]) ∧
    (calculate noSqrt (⟨0.3, some [("symmetry", (1/10 : ℚ))]⟩ : ExtractorState)
        (some shiftedFrame) none).1.lookup "symmetry"
      = some (0.3 * (2/5) + (1 - 0.3) * (1/10)) := by
  have hsym2 : calculate_symmetry shiftedFrame = 2/5 := by
    have h15 : getLm shiftedFrame 15 = ⟨0.5, 0.5, 0, 1⟩ := rfl
    have h16 : getLm shiftedFrame 16 = ⟨0.7, 0.5, 0, 1⟩ := rfl
    simp only [calculate_symmetry, h15, h16]
    rw [show ((⟨0.7, 0.5, 0, 1⟩ : Landmark).x - 0.5 - (0.5 - (⟨0.5, 0.5, 0, 1⟩ : Landmark).x)) * 2 = 2/5 by norm_num]
    rw [min_eq_right (by norm_num), max_eq_right (by norm_num)]
  have hrv : (raw_features noSqrt shiftedFrame none).lookup "symmetry"
      = some (2/5) := by
    have h0 : (raw_features noSqrt shiftedFrame none).lookup "symmetry"
        = some (calculate_symmetry shiftedFrame) := rfl
    rw [h0, hsym2]
  have h := c6_smoothing_recurrence noSqrt 0.3
    (⟨0.3, some [("symmetry", (1/10 : ℚ))]⟩ : ExtractorState)
    shiftedFrame none rfl (by decide)
    (show smoothness_defined none from fun l hl => Option.noConfusion hl)
  exact ⟨rfl, by decide,
    show smoothness_defined none from fun l hl => Option.noConfusion hl, rfl,
    (h.2 [("symmetry", (1/10 : ℚ))] rfl).1 "symmetry" (2/5) (1/10) hrv rfl⟩

theorem melody_hand_channel (side : String) (hy j av ea : ℚ) (bn : ℤ) (ch : ℕ)
    (t : ℚ) (st : MidiState) :
    ∀ e ∈ (update_melody_hand side hy j av ea bn ch t st).1, eventChannel e = ch := by
  intro e he
  by_cases hj : j > JERK_THRESHOLD
  · cases hcn : (if side = "right" then st.melody_right_note else st.melody_left_note) with
    | none =>
      simp only [update_melody_hand, hcn, hj, if_true] at he
      simp at he
      subst he
      rfl
    | some n =>
      simp only [update_melody_hand, hcn, hj, if_true] at he
      simp at he
      rcases he with rfl | rfl | rfl <;> rfl
  · cases hcn : (if side = "right" then st.melody_right_note else st.melody_left_note) with
    | none =>
      simp only [update_melody_hand, hcn, hj, if_false] at he
      simp at he
    | some n =>
      by_cases ht : t - (if side = "right" then st.melody_right_note_time
          else st.melody_left_note_time) > base_note_duration
      · simp only [update_melody_hand, hcn, hj, ht, if_true, if_false] at he
        simp at he
        rcases he with rfl | rfl <;> rfl
      · simp only [update_melody_hand, hcn, hj, ht, if_false] at he
        simp at he
        subst he
        rfl

theorem cnov_append (l1 l2 : List MidiEvent) :
    chord_note_on_velocities (l1 ++ l2) =
      chord_note_on_velocities l1 ++ chord_note_on_velocities l2 := by
  simp [chord_note_on_velocities, List.filterMap_append]

theorem cnov_offs (notes : List ℤ) :
    chord_note_on_velocities (List.zipWith
      (fun note ch => MidiEvent.note_off note ch) notes [1, 2, 3]) = [] := by
  rcases notes with _ | ⟨a, _ | ⟨b, _ | ⟨c, rest⟩⟩⟩ <;>
    simp [chord_note_on_velocities, List.zipWith_nil_right]

theorem cnov_ons (nc : ChordName) (v : ℤ) :
    chord_note_on_velocities (List.zipWith
      (fun note ch => MidiEvent.note_on note v ch) (chords nc) [1, 2, 3])
      = [v, v, v] := by
  cases nc <;> rfl

theorem cnov_expr (h k : ℚ) :
    chord_note_on_velocities (apply_chord_expression h k) = [] := rfl

theorem cnov_global (f : List (String × ℚ)) :
    chord_note_on_velocities (update_global_expression f) = [] := rfl

theorem cnov_of_channel (l : List MidiEvent) (ch : ℕ)
    (h : ∀ e ∈ l, eventChannel e = ch)
    (h1 : ch ≠ 1) (h2 : ch ≠ 2) (h3 : ch ≠ 3) :
    chord_note_on_velocities l = [] := by
  induction l with
  | nil => rfl
  | cons e rest ih =>
    have hch := h e (List.mem_cons_self _ _)
    have hrest := ih fun x hx => h x (List.mem_cons_of_mem _ hx)
    show List.filterMap _ (e :: rest) = []
    rw [List.filterMap_cons]
    cases e with
    | note_on n v c =>
      simp only [eventChannel] at hch
      subst hch
      dsimp only
      rw [if_neg (by simp [h1, h2, h3])]
      exact hrest
    | note_off n c => exact hrest
    | pitch_bend x c => exact hrest
    | channel_pressure x c => exact hrest
    | control_change a x c => exact hrest

theorem cnov_melody (f : List (String × ℚ)) (t : ℚ) (st' : MidiState) :
    chord_note_on_velocities (update_melody f t st').1 = [] := by
  have hd : (update_melody f t st').1 =
      (update_melody_hand "right" (dget f "rightHandY" 0.5)
        (dget f "rightHandJerk" 0.0) (dget f "rightArmVelocity" 0.0)
        (dget f "rightElbowHipAngle" 0.0) 48 4 t st').1 ++
      (update_melody_hand "left" (dget f "leftHandY" 0.5)
        (dget f "leftHandJerk" 0.0) (dget f "leftArmVelocity" 0.0)
        (dget f "leftElbowHipAngle" 0.0) 72 5 t
        (update_melody_hand "right" (dget f "rightHandY" 0.5)
          (dget f "rightHandJerk" 0.0) (dget f "rightArmVelocity" 0.0)
          (dget f "rightElbowHipAngle" 0.0) 48 4 t st').2).1 := rfl
  rw [hd, cnov_append,
    cnov_of_channel _ 4 (melody_hand_channel _ _ _ _ _ _ _ _ _)
      (by decide) (by decide) (by decide),
    cnov_of_channel _ 5 (melody_hand_channel _ _ _ _ _ _ _ _ _)
      (by decide) (by decide) (by decide)]
  rfl

theorem update_chord_velocities (f : List (String × ℚ)) (t : ℚ) (st : MidiState)
    (hchange : some (get_chord_from_position (dget f "feetCenterX" 0.5))
      ≠ st.current_chord) :
    chord_note_on_velocities (update f t st).1 =
      [max 1 (min 127 (pyInt (40 + dget f "kneeAngle" 1.0 * 87))),
       max 1 (min 127 (pyInt (40 + dget f "kneeAngle" 1.0 * 87))),
       max 1 (min 127 (pyInt (40 + dget f "kneeAngle" 1.0 * 87)))] := by
  have hdec : (update f t st).1 =
      ((update_chords f st).1 ++ (update_melody f t (update_chords f st).2).1)
        ++ update_global_expression f := rfl
  rw [hdec, cnov_append, cnov_append, cnov_global, cnov_melody]
  have hchords : chord_note_on_velocities (update_chords f st).1 =
      [max 1 (min 127 (pyInt (40 + dget f "kneeAngle" 1.0 * 87))),
       max 1 (min 127 (pyInt (40 + dget f "kneeAngle" 1.0 * 87))),
       max 1 (min 127 (pyInt (40 + dget f "kneeAngle" 1.0 * 87)))] := by
    simp only [update_chords]
    rw [if_pos hchange]
    rw [if_pos (by simp [change_chord])]
    rw [show (change_chord (get_chord_from_position (dget f "feetCenterX" 0.5))
        (dget f "kneeAngle" 1.0) st).1 =
      List.zipWith (fun note ch => MidiEvent.note_off note ch)
        st.current_chord_notes [1, 2, 3] ++
      List.zipWith (fun note ch => MidiEvent.note_on note
          (max 1 (min 127 (pyInt (40 + dget f "kneeAngle" 1.0 * 87)))) ch)
        (chords (get_chord_from_position (dget f "feetCenterX" 0.5)))
        [1, 2, 3] from rfl]
    rw [cnov_append, cnov_append, cnov_offs, cnov_ons, cnov_expr]
    rfl
  rw [hchords]
  rfl

/-- C4 counterexample.  At `kneeAngle = 3/290` (so `40 + kneeAngle·87 =
40.9`), a chord change sends the three chord note-ons at velocity 40 —
Python `int()` truncates — while the claim's formula
`clamp(round(40 + kneeAngle·87), 1, 127)` gives 41. -/
theorem c4_counterexample_velocity :
    chord_note_on_velocities
        (update [("kneeAngle", (3/290 : ℚ))] 0 initMidiState).1 = [40, 40, 40] ∧
    max 1 (min 127 (round ((40 : ℚ) + (3/290) * 87))) = 41 ∧ (40 : ℤ) ≠ 41 := by
  refine ⟨?_, ?_, by decide⟩
  · have hchange : some (get_chord_from_position
        (dget [("kneeAngle", (3/290 : ℚ))] "feetCenterX" 0.5))
        ≠ initMidiState.current_chord := by simp [initMidiState]
    rw [update_chord_velocities _ 0 _ hchange]
    have hk : dget [("kneeAngle", (3/290 : ℚ))] "kneeAngle" 1.0 = 3/290 := rfl
    rw [hk]
    have hfl : pyInt ((40 : ℚ) + 3/290 * 87) = 40 := by
      rw [pyInt_eq_floor (by norm_num)]
      rw [show ((40 : ℚ) + 3/290 * 87) = 409/10 by norm_num]
      norm_num
    rw [hfl]
    decide
  · have hr : round ((40 : ℚ) + 3/290 * 87) = 41 := by
      rw [show ((40 : ℚ) + 3/290 * 87) = 409/10 by norm_num, round_eq]
      norm_num
    rw [hr]
    decide

/-- C4, amended.  On every chord change with `kneeAngle ∈ [0,1]`, the three
chord note-ons carry velocity `clamp(floor(40 + kneeAngle·87), 1, 127)`:
Python `int()` truncates toward zero, which on this nonnegative range is
`floor`, not round-to-nearest. -/
theorem c4_chord_velocity_truncates (f : List (String × ℚ)) (t : ℚ)
    (st : MidiState)
    (hchange : some (get_chord_from_position (dget f "feetCenterX" 0.5))
      ≠ st.current_chord)
    (h0 : 0 ≤ dget f "kneeAngle" 1.0) (h1 : dget f "kneeAngle" 1.0 ≤ 1) :
    chord_note_on_velocities (update f t st).1 =
      [max 1 (min 127 (Int.floor (40 + dget f "kneeAngle" 1.0 * 87))),
       max 1 (min 127 (Int.floor (40 + dget f "kneeAngle" 1.0 * 87))),
       max 1 (min 127 (Int.floor (40 + dget f "kneeAngle" 1.0 * 87)))] := by
  rw [update_chord_velocities f t st hchange]
  have hnn : (0 : ℚ) ≤ 40 + dget f "kneeAngle" 1.0 * 87 := by
    have := mul_nonneg h0 (by norm_num : (0 : ℚ) ≤ 87)
    linarith
  rw [pyInt_eq_floor hnn]

/-- C4 witness: a chord change at `kneeAngle = 1` emits the triad at
velocity `clamp(floor(127), 1, 127) = 127`. -/
theorem c4_chord_velocity_truncates_witness :
    (some (get_chord_from_position
      (dget [("kneeAngle", (1 : ℚ))] "feetCenterX" 0.5))
      ≠ initMidiState.current_chord) ∧
    (0 ≤ dget [("kneeAngle", (1 : ℚ))] "kneeAngle" 1.0) ∧
    (dget [("kneeAngle", (1 : ℚ))] "kneeAngle" 1.0 ≤ 1) ∧
    chord_note_on_velocities
        (update [("kneeAngle", (1 : ℚ))] 0 initMidiState).1 =
      [max 1 (min 127 (Int.floor
        (40 + dget [("kneeAngle", (1 : ℚ))] "kneeAngle" 1.0 * 87))),
       max 1 (min 127 (Int.floor
        (40 + dget [("kneeAngle", (1 : ℚ))] "kneeAngle" 1.0 * 87))),
       max 1 (min 127 (Int.floor
        (40 + dget [("kneeAngle", (1 : ℚ))] "kneeAngle" 1.0 * 87)))] :=
  ⟨by simp [initMidiState], by norm_num [dget], by norm_num [dget],
   c4_chord_velocity_truncates _ 0 _ (by simp [initMidiState])
     (by norm_num [dget]) (by norm_num [dget])⟩

theorem cne_append (l1 l2 : List MidiEvent) :
    chord_note_events (l1 ++ l2) =
      chord_note_events l1 ++ chord_note_events l2 := by
  simp [chord_note_events, List.filter_append]

theorem cne_of_channel (l : List MidiEvent) (ch : ℕ)
    (h : ∀ e ∈ l, eventChannel e = ch)
    (h1 : ch ≠ 1) (h2 : ch ≠ 2) (h3 : ch ≠ 3) :
    chord_note_events l = [] := by
  induction l with
  | nil => rfl
  | cons e rest ih =>
    have hch := h e (List.mem_cons_self _ _)
    have hrest := ih fun x hx => h x (List.mem_cons_of_mem _ hx)
    show List.filter _ (e :: rest) = []
    rw [List.filter_cons, if_neg (by simp [hch, h1, h2, h3])]
    exact hrest

theorem cne_offs (notes : List ℤ) :
    chord_note_events (List.zipWith
      (fun note ch => MidiEvent.note_off note ch) notes [1, 2, 3]) =
    List.zipWith (fun note ch => MidiEvent.note_off note ch) notes [1, 2, 3] := by
  rcases notes with _ | ⟨a, _ | ⟨b, _ | ⟨c, rest⟩⟩⟩ <;>
    simp [chord_note_events, List.zipWith_nil_right, is_note_event, eventChannel]

theorem cne_ons (nc : ChordName) (v : ℤ) :
    chord_note_events (List.zipWith
      (fun note ch => MidiEvent.note_on note v ch) (chords nc) [1, 2, 3]) =
    List.zipWith (fun note ch => MidiEvent.note_on note v ch) (chords nc)
      [1, 2, 3] := by
  cases nc <;> rfl

theorem cne_expr (h k : ℚ) :
    chord_note_events (apply_chord_expression h k) = [] := rfl

theorem cne_global (f : List (String × ℚ)) :
    chord_note_events (update_global_expression f) = [] := rfl

theorem cne_melody (f : List (String × ℚ)) (t : ℚ) (st' : MidiState) :
    chord_note_events (update_melody f t st').1 = [] := by
  have hd : (update_melody f t st').1 =
      (update_melody_hand "right" (dget f "rightHandY" 0.5)
        (dget f "rightHandJerk" 0.0) (dget f "rightArmVelocity" 0.0)
        (dget f "rightElbowHipAngle" 0.0) 48 4 t st').1 ++
      (update_melody_hand "left" (dget f "leftHandY" 0.5)
        (dget f "leftHandJerk" 0.0) (dget f "leftArmVelocity" 0.0)
        (dget f "leftElbowHipAngle" 0.0) 72 5 t
        (update_melody_hand "right" (dget f "rightHandY" 0.5)
          (dget f "rightHandJerk" 0.0) (dget f "rightArmVelocity" 0.0)
          (dget f "rightElbowHipAngle" 0.0) 48 4 t st').2).1 := rfl
  rw [hd, cne_append,
    cne_of_channel _ 4 (melody_hand_channel _ _ _ _ _ _ _ _ _)
      (by decide) (by decide) (by decide),
    cne_of_channel _ 5 (melody_hand_channel _ _ _ _ _ _ _ _ _)
      (by decide) (by decide) (by decide)]
  rfl

/-- C7.  Chord transitions are edge-triggered: a zone different from the
active chord yields exactly the three note-offs of the old triad (none when
no chord was active yet) followed by the three note-ons of the new triad on
chord channels 1, 2, 3; an identical zone yields no note events at all on
the chord channels, while pitch bend and channel pressure are still sent on
all three chord channels in that same call. -/
theorem c7_chord_transition_edge_triggered (f : List (String × ℚ)) (t : ℚ)
    (st : MidiState) (nc : ChordName)
    (hnc : nc = get_chord_from_position (dget f "feetCenterX" 0.5))
    (hwf : (st.current_chord = none ∧ st.current_chord_notes = []) ∨
           (∃ c, st.current_chord = some c ∧ st.current_chord_notes = chords c)) :
    (st.current_chord = none →
      chord_note_events (update f t st).1 =
        List.zipWith (fun note ch => MidiEvent.note_on note
          (max 1 (min 127 (pyInt (40 + dget f "kneeAngle" 1.0 * 87)))) ch)
          (chords nc) [1, 2, 3]) ∧
    (∀ c, st.current_chord = some c → nc ≠ c →
      chord_note_events (update f t st).1 =
        List.zipWith (fun note ch => MidiEvent.note_off note ch)
          (chords c) [1, 2, 3] ++
        List.zipWith (fun note ch => MidiEvent.note_on note
          (max 1 (min 127 (pyInt (40 + dget f "kneeAngle" 1.0 * 87)))) ch)
          (chords nc) [1, 2, 3]) ∧
    (∀ c, st.current_chord = some c → nc = c →
      chord_note_events (update f t st).1 = [] ∧
      (∀ ch, ch = 1 ∨ ch = 2 ∨ ch = 3 →
        MidiEvent.pitch_bend
          (max 0 (min 16383 (pyInt (8192 + dget f "hipTilt" 0.0 * 4096)))) ch
          ∈ (update f t st).1 ∧
        MidiEvent.channel_pressure (pyInt (dget f "kneeAngle" 1.0 * 127)) ch
          ∈ (update f t st).1)) := by
  subst hnc
  have hdec : (update f t st).1 =
      ((update_chords f st).1 ++ (update_melody f t (update_chords f st).2).1)
        ++ update_global_expression f := rfl
  refine ⟨?_, ?_, ?_⟩
  · intro hnone
    have hchange : some (get_chord_from_position (dget f "feetCenterX" 0.5))
        ≠ st.current_chord := by rw [hnone]; simp
    have hnotes : st.current_chord_notes = [] := by
      rcases hwf with ⟨_, h⟩ | ⟨c, hc, _⟩
      · exact h
      · rw [hnone] at hc; cases hc
    rw [hdec, cne_append, cne_append, cne_global, cne_melody]
    simp only [update_chords]
    rw [if_pos hchange, if_pos (by simp [change_chord])]
    rw [show (change_chord (get_chord_from_position (dget f "feetCenterX" 0.5))
        (dget f "kneeAngle" 1.0) st).1 =
      List.zipWith (fun note ch => MidiEvent.note_off note ch)
        st.current_chord_notes [1, 2, 3] ++
      List.zipWith (fun note ch => MidiEvent.note_on note
          (max 1 (min 127 (pyInt (40 + dget f "kneeAngle" 1.0 * 87)))) ch)
        (chords (get_chord_from_position (dget f "feetCenterX" 0.5)))
        [1, 2, 3] from rfl]
    rw [cne_append, cne_append, hnotes, cne_ons, cne_expr]
    simp
    rfl
  · intro c hc hne
    have hchange : some (get_chord_from_position (dget f "feetCenterX" 0.5))
        ≠ st.current_chord := by rw [hc]; simp [hne]
    have hnotes : st.current_chord_notes = chords c := by
      rcases hwf with ⟨hn, _⟩ | ⟨c', hc', h⟩
      · rw [hn] at hc; cases hc
      · rw [hc'] at hc
        cases hc
        exact h
    rw [hdec, cne_append, cne_append, cne_global, cne_melody]
    simp only [update_chords]
    rw [if_pos hchange, if_pos (by simp [change_chord])]
    rw [show (change_chord (get_chord_from_position (dget f "feetCenterX" 0.5))
        (dget f "kneeAngle" 1.0) st).1 =
      List.zipWith (fun note ch => MidiEvent.note_off note ch)
        st.current_chord_notes [1, 2, 3] ++
      List.zipWith (fun note ch => MidiEvent.note_on note
          (max 1 (min 127 (pyInt (40 + dget f "kneeAngle" 1.0 * 87)))) ch)
        (chords (get_chord_from_position (dget f "feetCenterX" 0.5)))
        [1, 2, 3] from rfl]
    rw [cne_append, cne_append, hnotes, cne_offs, cne_ons, cne_expr]
    simp
  · intro c hc heq
    have hnochange : ¬(some (get_chord_from_position (dget f "feetCenterX" 0.5))
        ≠ st.current_chord) := by simp [hc, heq]
    have hchords : (update_chords f st).1 =
        apply_chord_expression (dget f "hipTilt" 0.0) (dget f "kneeAngle" 1.0) := by
      simp only [update_chords]
      rw [if_neg hnochange, if_pos (by simp [hc])]
      rfl
    constructor
    · rw [hdec, cne_append, cne_append, cne_global, cne_melody, hchords, cne_expr]
      rfl
    · intro ch hch
      constructor
      · rw [hdec, hchords]
        apply List.mem_append_left
        apply List.mem_append_left
        rcases hch with rfl | rfl | rfl <;> simp [apply_chord_expression]
      · rw [hdec, hchords]
        apply List.mem_append_left
        apply List.mem_append_left
        rcases hch with rfl | rfl | rfl <;> simp [apply_chord_expression]

/-- C7 witness: the very first `update` call (no active chord, all default
features) emits the three note-ons of the computed zone's triad and no
note-offs on the chord channels. -/
theorem c7_chord_transition_edge_triggered_witness :
    initMidiState.current_chord = none ∧
    chord_note_events (update [] 0 initMidiState).1 =
      List.zipWith (fun note ch => MidiEvent.note_on note
        (max 1 (min 127 (pyInt (40 + dget [] "kneeAngle" 1.0 * 87)))) ch)
        (chords (get_chord_from_position (dget [] "feetCenterX" 0.5))) [1, 2, 3] :=
  ⟨rfl,
   (c7_chord_transition_edge_triggered [] 0 initMidiState _ rfl
     (Or.inl ⟨rfl, rfl⟩)).1 rfl⟩

theorem eoc_append (ch : ℕ) (l1 l2 : List MidiEvent) :
    events_on_channel ch (l1 ++ l2) =
      events_on_channel ch l1 ++ events_on_channel ch l2 := by
  simp [events_on_channel, List.filter_append]

theorem eoc_nil_of_ne (l : List MidiEvent) (ch : ℕ)
    (h : ∀ e ∈ l, eventChannel e ≠ ch) : events_on_channel ch l = [] := by
  induction l with
  | nil => rfl
  | cons e rest ih =>
    have hch := h e (List.mem_cons_self _ _)
    have hrest := ih fun x hx => h x (List.mem_cons_of_mem _ hx)
    show List.filter _ (e :: rest) = []
    rw [List.filter_cons, if_neg (by simp [hch])]
    exact hrest

theorem mem_zipWith_channel (g : ℤ → ℕ → MidiEvent)
    (hg : ∀ n c, eventChannel (g n c) = c) :
    ∀ (ns : List ℤ) (chs : List ℕ) (e : MidiEvent),
      e ∈ List.zipWith g ns chs → ∃ c ∈ chs, eventChannel e = c := by
  intro ns
  induction ns with
  | nil => intro chs e he; simp at he
  | cons a tl ih =>
    intro chs e he
    cases chs with
    | nil => simp at he
    | cons c cs =>
      rw [show List.zipWith g (a :: tl) (c :: cs) = g a c :: List.zipWith g tl cs
        from rfl] at he
      rcases List.mem_cons.mp he with rfl | h
      · exact ⟨c, List.mem_cons_self _ _, hg a c⟩
      · obtain ⟨c', hc', he'⟩ := ih cs e h
        exact ⟨c', List.mem_cons_of_mem _ hc', he'⟩

theorem change_chord_channels (nc : ChordName) (k : ℚ) (st : MidiState) :
    ∀ e ∈ (change_chord nc k st).1,
      eventChannel e = 1 ∨ eventChannel e = 2 ∨ eventChannel e = 3 := by
  intro e he
  have hform : (change_chord nc k st).1 =
      List.zipWith (fun note ch => MidiEvent.note_off note ch)
        st.current_chord_notes [1, 2, 3] ++
      List.zipWith (fun note ch => MidiEvent.note_on note
          (max 1 (min 127 (pyInt (40 + k * 87)))) ch) (chords nc) [1, 2, 3] := rfl
  rw [hform] at he
  rcases List.mem_append.mp he with h | h
  · obtain ⟨c, hc, hch⟩ := mem_zipWith_channel
      (fun note ch => MidiEvent.note_off note ch) (fun n c => rfl) _ _ e h
    simp only [List.mem_cons, List.not_mem_nil, or_false] at hc
    rcases hc with rfl | rfl | rfl
    · exact Or.inl hch
    · exact Or.inr (Or.inl hch)
    · exact Or.inr (Or.inr hch)
  · obtain ⟨c, hc, hch⟩ := mem_zipWith_channel
      (fun note ch => MidiEvent.note_on note
        (max 1 (min 127 (pyInt (40 + k * 87)))) ch) (fun n c => rfl) _ _ e h
    simp only [List.mem_cons, List.not_mem_nil, or_false] at hc
    rcases hc with rfl | rfl | rfl
    · exact Or.inl hch
    · exact Or.inr (Or.inl hch)
    · exact Or.inr (Or.inr hch)

theorem expr_channels (hp k : ℚ) :
    ∀ e ∈ apply_chord_expression hp k,
      eventChannel e = 1 ∨ eventChannel e = 2 ∨ eventChannel e = 3 := by
  intro e he
  simp [apply_chord_expression] at he
  rcases he with rfl | rfl | rfl | rfl | rfl | rfl <;> simp [eventChannel]

theorem update_chords_channels (f : List (String × ℚ)) (st : MidiState) :
    ∀ e ∈ (update_chords f st).1,
      eventChannel e = 1 ∨ eventChannel e = 2 ∨ eventChannel e = 3 := by
  intro e he
  simp only [update_chords] at he
  by_cases hP : some (get_chord_from_position (dget f "feetCenterX" 0.5))
      ≠ st.current_chord
  · rw [if_pos hP, if_pos (by simp [change_chord])] at he
    rcases List.mem_append.mp he with h | h
    · exact change_chord_channels _ _ _ e h
    · exact expr_channels _ _ e h
  · rw [if_neg hP] at he
    by_cases hcc : (([] : List MidiEvent), st).2.current_chord ≠ none
    · rw [if_pos hcc] at he
      rcases List.mem_append.mp he with h | h
      · simp at h
      · exact expr_channels _ _ e h
    · rw [if_neg hcc] at he
      simp at he

theorem update_chords_melody_fields (f : List (String × ℚ)) (st : MidiState) :
    (update_chords f st).2.melody_right_note = st.melody_right_note ∧
    (update_chords f st).2.melody_left_note = st.melody_left_note ∧
    (update_chords f st).2.melody_right_note_time = st.melody_right_note_time ∧
    (update_chords f st).2.melody_left_note_time = st.melody_left_note_time := by
  simp only [update_chords]
  by_cases hP : some (get_chord_from_position (dget f "feetCenterX" 0.5))
      ≠ st.current_chord
  · rw [if_pos hP]
    simp [change_chord]
  · rw [if_neg hP]
    exact ⟨rfl, rfl, rfl, rfl⟩

theorem melody_hand_left_keeps_right (hy j av ea : ℚ) (bn : ℤ) (ch0 : ℕ)
    (t : ℚ) (st : MidiState) :
    (update_melody_hand "left" hy j av ea bn ch0 t st).2.melody_right_note
      = st.melody_right_note := by
  by_cases hj : j > JERK_THRESHOLD
  · simp [update_melody_hand, hj]
  · cases hcn : st.melody_left_note with
    | none => simp [update_melody_hand, hj, hcn]
    | some m =>
      by_cases ht : t - st.melody_left_note_time > base_note_duration
      · simp [update_melody_hand, hj, hcn, ht]
      · simp [update_melody_hand, hj, hcn, ht]

theorem melody_hand_right_keeps_left (hy j av ea : ℚ) (bn : ℤ) (ch0 : ℕ)
    (t : ℚ) (st : MidiState) :
    (update_melody_hand "right" hy j av ea bn ch0 t st).2.melody_left_note
      = st.melody_left_note := by
  by_cases hj : j > JERK_THRESHOLD
  · simp [update_melody_hand, hj]
  · cases hcn : st.melody_right_note with
    | none => simp [update_melody_hand, hj, hcn]
    | some m =>
      by_cases ht : t - st.melody_right_note_time > base_note_duration
      · simp [update_melody_hand, hj, hcn, ht]
      · simp [update_melody_hand, hj, hcn, ht]

theorem melody_hand_chord_fields (side : String) (hy j av ea : ℚ) (bn : ℤ)
    (ch0 : ℕ) (t : ℚ) (st : MidiState) :
    (update_melody_hand side hy j av ea bn ch0 t st).2.current_chord
      = st.current_chord ∧
    (update_melody_hand side hy j av ea bn ch0 t st).2.current_chord_notes
      = st.current_chord_notes := by
  by_cases hs : side = "right"
  · by_cases hj : j > JERK_THRESHOLD
    · simp [update_melody_hand, hs, hj]
    · cases hcn : st.melody_right_note with
      | none => simp [update_melody_hand, hs, hj, hcn]
      | some m =>
        by_cases ht : t - st.melody_right_note_time > base_note_duration
        · simp [update_melody_hand, hs, hj, hcn, ht]
        · simp [update_melody_hand, hs, hj, hcn, ht]
  · by_cases hj : j > JERK_THRESHOLD
    · simp [update_melody_hand, hs, hj]
    · cases hcn : st.melody_left_note with
      | none => simp [update_melody_hand, hs, hj, hcn]
      | some m =>
        by_cases ht : t - st.melody_left_note_time > base_note_duration
        · simp [update_melody_hand, hs, hj, hcn, ht]
        · simp [update_melody_hand, hs, hj, hcn, ht]

theorem melody_hand_right_keeps_left_time (hy j av ea : ℚ) (bn : ℤ) (ch0 : ℕ)
    (t : ℚ) (st : MidiState) :
    (update_melody_hand "right" hy j av ea bn ch0 t st).2.melody_left_note_time
      = st.melody_left_note_time := by
  by_cases hj : j > JERK_THRESHOLD
  · simp [update_melody_hand, hj]
  · cases hcn : st.melody_right_note with
    | none => simp [update_melody_hand, hj, hcn]
    | some m =>
      by_cases ht : t - st.melody_right_note_time > base_note_duration
      · simp [update_melody_hand, hj, hcn, ht]
      · simp [update_melody_hand, hj, hcn, ht]


theorem eoc_keep_two (ch : ℕ) (n v : ℤ) :
    events_on_channel ch [MidiEvent.note_off n ch, MidiEvent.pitch_bend v ch]
      = [MidiEvent.note_off n ch, MidiEvent.pitch_bend v ch] := by
  simp [events_on_channel, eventChannel]

theorem eoc_global (f : List (String × ℚ)) (ch : ℕ) (h : ch ≠ 0) :
    events_on_channel ch (update_global_expression f) = [] := by
  simp [events_on_channel, update_global_expression, eventChannel,
    beq_eq_false_iff_ne, Ne.symm h]

/-- C10.  When a melody hand's jerk does not exceed the trigger threshold
and its sounding note has outlived the 0.3 s base duration, `update` emits
the note-off and clears that hand's note state, yet still emits one pitch
bend on that hand's channel in the same call, because the final pitch-bend
step tests the note variable read at entry rather than the cleared state. -/
theorem c10_timeout_note_off_still_bends (f : List (String × ℚ)) (t : ℚ)
    (st : MidiState) (side : String) (n : ℤ)
    (hside : side = "right" ∨ side = "left")
    (hjerk : dget f (hand_jerk_key side) 0.0 ≤ JERK_THRESHOLD)
    (hnote : melody_note side st = some n)
    (htime : t - melody_time side st > base_note_duration) :
    events_on_channel (hand_channel side) (update f t st).1 =
      [MidiEvent.note_off n (hand_channel side),
       MidiEvent.pitch_bend
         (max 0 (min 16383
           (pyInt (8192 + dget f (hand_elbow_key side) 0.0 * 2048))))
         (hand_channel side)] ∧
    melody_note side (update f t st).2 = none := by
  obtain ⟨hm1, hm2, hm3, hm4⟩ := update_chords_melody_fields f st
  rcases hside with rfl | rfl
  · rw [show hand_jerk_key "right" = "rightHandJerk" from rfl] at hjerk
    rw [show melody_note "right" st = st.melody_right_note from rfl] at hnote
    rw [show melody_time "right" st = st.melody_right_note_time from rfl] at htime
    rw [show hand_channel "right" = 4 from rfl,
        show hand_elbow_key "right" = "rightElbowHipAngle" from rfl]
    have hjerk' : ¬(dget f "rightHandJerk" 0.0 > JERK_THRESHOLD) :=
      not_lt.mpr hjerk
    have hn1 : (update_chords f st).2.melody_right_note = some n := by
      rw [hm1, hnote]
    have ht1 : t - (update_chords f st).2.melody_right_note_time
        > base_note_duration := by rw [hm3]; exact htime
    have hE : update_melody_hand "right" (dget f "rightHandY" 0.5)
        (dget f "rightHandJerk" 0.0) (dget f "rightArmVelocity" 0.0)
        (dget f "rightElbowHipAngle" 0.0) 48 4 t (update_chords f st).2 =
        ([MidiEvent.note_off n 4,
          MidiEvent.pitch_bend (max 0 (min 16383
            (pyInt (8192 + dget f "rightElbowHipAngle" 0.0 * 2048)))) 4],
         { (update_chords f st).2 with melody_right_note := none }) := by
      simp [update_melody_hand, hjerk', hn1, ht1]
    have hdec : (update f t st).1 =
        (update_chords f st).1 ++
        ((update_melody_hand "right" (dget f "rightHandY" 0.5)
            (dget f "rightHandJerk" 0.0) (dget f "rightArmVelocity" 0.0)
            (dget f "rightElbowHipAngle" 0.0) 48 4 t (update_chords f st).2).1 ++
          (update_melody_hand "left" (dget f "leftHandY" 0.5)
            (dget f "leftHandJerk" 0.0) (dget f "leftArmVelocity" 0.0)
            (dget f "leftElbowHipAngle" 0.0) 72 5 t
            (update_melody_hand "right" (dget f "rightHandY" 0.5)
              (dget f "rightHandJerk" 0.0) (dget f "rightArmVelocity" 0.0)
              (dget f "rightElbowHipAngle" 0.0) 48 4 t
              (update_chords f st).2).2).1) ++
        update_global_expression f := rfl
    have hchordnil : events_on_channel 4 (update_chords f st).1 = [] :=
      eoc_nil_of_ne _ _ fun e he => by
        rcases update_chords_channels f st e he with h | h | h <;> omega
    have hleftnil : ∀ stx : MidiState, events_on_channel 4
        (update_melody_hand "left" (dget f "leftHandY" 0.5)
          (dget f "leftHandJerk" 0.0) (dget f "leftArmVelocity" 0.0)
          (dget f "leftElbowHipAngle" 0.0) 72 5 t stx).1 = [] :=
      fun stx => eoc_nil_of_ne _ _ fun e he => by
        have h5 := melody_hand_channel "left" _ _ _ _ _ _ _ _ e he
        omega
    constructor
    · rw [hdec, hE]
      dsimp only
      rw [eoc_append, eoc_append, eoc_append, hchordnil, eoc_keep_two,
        hleftnil, eoc_global _ _ (by decide)]
      simp
    · have hst : (update f t st).2 =
          (update_melody_hand "left" (dget f "leftHandY" 0.5)
            (dget f "leftHandJerk" 0.0) (dget f "leftArmVelocity" 0.0)
            (dget f "leftElbowHipAngle" 0.0) 72 5 t
            (update_melody_hand "right" (dget f "rightHandY" 0.5)
              (dget f "rightHandJerk" 0.0) (dget f "rightArmVelocity" 0.0)
              (dget f "rightElbowHipAngle" 0.0) 48 4 t
              (update_chords f st).2).2).2 := rfl
      have hmel : melody_note "right" (update f t st).2
          = (update f t st).2.melody_right_note := rfl
      rw [hmel, hst, hE, melody_hand_left_keeps_right]
  · rw [show hand_jerk_key "left" = "leftHandJerk" from rfl] at hjerk
    rw [show melody_note "left" st = st.melody_left_note from rfl] at hnote
    rw [show melody_time "left" st = st.melody_left_note_time from rfl] at htime
    rw [show hand_channel "left" = 5 from rfl,
        show hand_elbow_key "left" = "leftElbowHipAngle" from rfl]
    have hjerk' : ¬(dget f "leftHandJerk" 0.0 > JERK_THRESHOLD) :=
      not_lt.mpr hjerk
    have hdec : (update f t st).1 =
        (update_chords f st).1 ++
        ((update_melody_hand "right" (dget f "rightHandY" 0.5)
            (dget f "rightHandJerk" 0.0) (dget f "rightArmVelocity" 0.0)
            (dget f "rightElbowHipAngle" 0.0) 48 4 t (update_chords f st).2).1 ++
          (update_melody_hand "left" (dget f "leftHandY" 0.5)
            (dget f "leftHandJerk" 0.0) (dget f "leftArmVelocity" 0.0)
            (dget f "leftElbowHipAngle" 0.0) 72 5 t
            (update_melody_hand "right" (dget f "rightHandY" 0.5)
              (dget f "rightHandJerk" 0.0) (dget f "rightArmVelocity" 0.0)
              (dget f "rightElbowHipAngle" 0.0) 48 4 t
              (update_chords f st).2).2).1) ++
        update_global_expression f := rfl
    have hchordnil : events_on_channel 5 (update_chords f st).1 = [] :=
      eoc_nil_of_ne _ _ fun e he => by
        rcases update_chords_channels f st e he with h | h | h <;> omega
    have hrightnil : events_on_channel 5
        (update_melody_hand "right" (dget f "rightHandY" 0.5)
          (dget f "rightHandJerk" 0.0) (dget f "rightArmVelocity" 0.0)
          (dget f "rightElbowHipAngle" 0.0) 48 4 t (update_chords f st).2).1
        = [] :=
      eoc_nil_of_ne _ _ fun e he => by
        have h4 := melody_hand_channel "right" _ _ _ _ _ _ _ _ e he
        omega
    set stR := (update_melody_hand "right" (dget f "rightHandY" 0.5)
      (dget f "rightHandJerk" 0.0) (dget f "rightArmVelocity" 0.0)
      (dget f "rightElbowHipAngle" 0.0) 48 4 t (update_chords f st).2).2
      with hstR
    have hn1 : stR.melody_left_note = some n := by
      rw [hstR, melody_hand_right_keeps_left, hm2, hnote]
    have ht1 : t - stR.melody_left_note_time > base_note_duration := by
      rw [hstR, melody_hand_right_keeps_left_time, hm4]
      exact htime
    have hE : update_melody_hand "left" (dget f "leftHandY" 0.5)
        (dget f "leftHandJerk" 0.0) (dget f "leftArmVelocity" 0.0)
        (dget f "leftElbowHipAngle" 0.0) 72 5 t stR =
        ([MidiEvent.note_off n 5,
          MidiEvent.pitch_bend (max 0 (min 16383
            (pyInt (8192 + dget f "leftElbowHipAngle" 0.0 * 2048)))) 5],
         { stR with melody_left_note := none }) := by
      simp [update_melody_hand, hjerk', hn1, ht1]
    constructor
    · rw [hdec, hE]
      dsimp only
      rw [eoc_append, eoc_append, eoc_append, hchordnil, hrightnil,
        eoc_keep_two, eoc_global _ _ (by decide)]
      simp
    · have hst : (update f t st).2 =
          (update_melody_hand "left" (dget f "leftHandY" 0.5)
            (dget f "leftHandJerk" 0.0) (dget f "leftArmVelocity" 0.0)
            (dget f "leftElbowHipAngle" 0.0) 72 5 t stR).2 := rfl
      have hmel : melody_note "left" (update f t st).2
          = (update f t st).2.melody_left_note := rfl
      rw [hmel, hst, hE]

/-- C10 witness: right hand with note 60 sounding since time 0, no jerk,
update at time 1. -/
theorem c10_timeout_note_off_still_bends_witness :
    (dget [] (hand_jerk_key "right") 0.0 ≤ JERK_THRESHOLD) ∧
    (melody_note "right" { initMidiState with melody_right_note := some 60 }
      = some 60) ∧
    ((1 : ℚ) - melody_time "right"
      { initMidiState with melody_right_note := some 60 }
      > base_note_duration) ∧
    (events_on_channel (hand_channel "right")
        (update [] 1 { initMidiState with melody_right_note := some 60 }).1 =
      [MidiEvent.note_off 60 (hand_channel "right"),
       MidiEvent.pitch_bend
         (max 0 (min 16383
           (pyInt (8192 + dget [] (hand_elbow_key "right") 0.0 * 2048))))
         (hand_channel "right")] ∧
     melody_note "right"
       (update [] 1 { initMidiState with melody_right_note := some 60 }).2
       = none) :=
  ⟨by norm_num [dget, hand_jerk_key, JERK_THRESHOLD],
   rfl,
   by norm_num [melody_time, initMidiState, base_note_duration],
   c10_timeout_note_off_still_bends [] 1
     { initMidiState with melody_right_note := some 60 } "right" 60
     (Or.inl rfl)
     (by norm_num [dget, hand_jerk_key, JERK_THRESHOLD])
     rfl
     (by norm_num [melody_time, initMidiState, base_note_duration])⟩

theorem chords_three (nc : ChordName) : ∃ m1 m2 m3, chords nc = [m1, m2, m3] := by
  cases nc <;> exact ⟨_, _, _, rfl⟩

theorem replay_append (ch : ℕ) (l1 l2 : List MidiEvent) (s : Option ℤ) :
    replay ch s (l1 ++ l2) =
      match replay ch s l1 with
      | none => none
      | some s' => replay ch s' l2 := by
  induction l1 generalizing s with
  | nil => rfl
  | cons e rest ih =>
    have hL : replay ch s ((e :: rest) ++ l2) =
        match replayStep ch s e with
        | none => none
        | some s' => replay ch s' (rest ++ l2) := rfl
    have hR : replay ch s (e :: rest) =
        match replayStep ch s e with
        | none => none
        | some s' => replay ch s' rest := rfl
    rw [hL, hR]
    cases replayStep ch s e with
    | none => rfl
    | some s' => exact ih s'

theorem touches_false_of_channel_ne {e : MidiEvent} {ch : ℕ}
    (h : eventChannel e ≠ ch) : touches ch e = false := by
  cases e <;> simp_all [touches, eventChannel]

theorem replay_irrelevant (ch : ℕ) (s : Option ℤ) (l : List MidiEvent)
    (h : ∀ e ∈ l, touches ch e = false) : replay ch s l = some s := by
  induction l generalizing s with
  | nil => rfl
  | cons e rest ih =>
    have he := h e (List.mem_cons_self _ _)
    have hstep : replayStep ch s e = some s := by
      cases e with
      | note_on n v c =>
        simp only [touches, beq_eq_false_iff_ne] at he
        simp [replayStep, he]
      | note_off n c =>
        simp only [touches, beq_eq_false_iff_ne] at he
        simp [replayStep, he]
      | pitch_bend x c => rfl
      | channel_pressure x c => rfl
      | control_change a x c => rfl
    show (match replayStep ch s e with
          | none => none
          | some s' => replay ch s' rest) = some s
    rw [hstep]
    exact ih s fun x hx => h x (List.mem_cons_of_mem _ hx)

theorem replay_expr (ch : ℕ) (s : Option ℤ) (hp k : ℚ) :
    replay ch s (apply_chord_expression hp k) = some s := rfl

theorem replay_global (ch : ℕ) (s : Option ℤ) (f : List (String × ℚ)) :
    replay ch s (update_global_expression f) = some s := rfl

theorem sounding_congr (st st' : MidiState) (ch : ℕ)
    (hN : st'.current_chord_notes = st.current_chord_notes)
    (hR : ch = 4 → st'.melody_right_note = st.melody_right_note)
    (hL : ch = 5 → st'.melody_left_note = st.melody_left_note) :
    sounding st' ch = sounding st ch := by
  simp only [sounding]
  split_ifs with h1 h2 h3 h4 h5
  · rw [hN]
  · rw [hN]
  · rw [hN]
  · exact hR h4
  · exact hL h5
  · rfl

theorem sounding_ge6 (st : MidiState) (ch : ℕ) :
    sounding st (ch + 6) = none := by
  simp only [sounding]
  rw [if_neg (by omega), if_neg (by omega), if_neg (by omega),
    if_neg (by omega), if_neg (by omega)]

theorem change_chord_touch (nc : ChordName) (k : ℚ) (st : MidiState) (ch : ℕ)
    (h1 : ch ≠ 1) (h2 : ch ≠ 2) (h3 : ch ≠ 3) :
    ∀ e ∈ (change_chord nc k st).1, touches ch e = false := fun e he =>
  touches_false_of_channel_ne (by
    rcases change_chord_channels nc k st e he with h | h | h <;> omega)

theorem change_chord_replay (nc : ChordName) (k : ℚ) (st : MidiState) (ch : ℕ) :
    replay ch (sounding st ch) (change_chord nc k st).1
      = some (sounding (change_chord nc k st).2 ch) := by
  obtain ⟨m1, m2, m3, hm⟩ := chords_three nc
  have hform : (change_chord nc k st).1 =
      List.zipWith (fun note ch => MidiEvent.note_off note ch)
        st.current_chord_notes [1, 2, 3] ++
      List.zipWith (fun note ch => MidiEvent.note_on note
          (max 1 (min 127 (pyInt (40 + k * 87)))) ch) (chords nc) [1, 2, 3] := rfl
  have hst2 : (change_chord nc k st).2 =
      { st with current_chord := some nc, current_chord_notes := chords nc } := rfl
  rcases ch with _ | _ | _ | _ | _ | _ | chx
  · rw [replay_irrelevant _ _ _ (change_chord_touch nc k st 0
      (by decide) (by decide) (by decide))]
    rfl
  · rw [hform, hst2]
    simp only [sounding]
    generalize st.current_chord_notes = ns
    rcases ns with _ | ⟨a, _ | ⟨b, _ | ⟨c, r⟩⟩⟩ <;>
      simp [List.zipWith_nil_right, hm, replay, replayStep]
  · rw [hform, hst2]
    simp only [sounding]
    generalize st.current_chord_notes = ns
    rcases ns with _ | ⟨a, _ | ⟨b, _ | ⟨c, r⟩⟩⟩ <;>
      simp [List.zipWith_nil_right, hm, replay, replayStep]
  · rw [hform, hst2]
    simp only [sounding]
    generalize st.current_chord_notes = ns
    rcases ns with _ | ⟨a, _ | ⟨b, _ | ⟨c, r⟩⟩⟩ <;>
      simp [List.zipWith_nil_right, hm, replay, replayStep]
  · rw [replay_irrelevant _ _ _ (change_chord_touch nc k st 4
      (by decide) (by decide) (by decide))]
    rfl
  · rw [replay_irrelevant _ _ _ (change_chord_touch nc k st 5
      (by decide) (by decide) (by decide))]
    rfl
  · rw [replay_irrelevant _ _ _ (change_chord_touch nc k st (chx + 6)
      (by omega) (by omega) (by omega))]
    rw [sounding_ge6, sounding_ge6]

theorem update_chords_replay (f : List (String × ℚ)) (st : MidiState) (ch : ℕ) :
    replay ch (sounding st ch) (update_chords f st).1
      = some (sounding (update_chords f st).2 ch) := by
  simp only [update_chords]
  by_cases hP : some (get_chord_from_position (dget f "feetCenterX" 0.5))
      ≠ st.current_chord
  · rw [if_pos hP, if_pos (by simp [change_chord])]
    rw [replay_append, change_chord_replay]
    exact replay_expr _ _ _ _
  · rw [if_neg hP]
    by_cases hcc : (([] : List MidiEvent), st).2.current_chord ≠ none
    · rw [if_pos hcc]
      exact replay_expr _ _ _ _
    · rw [if_neg hcc]
      rfl

theorem update_melody_hand_right_replay (hy j av ea : ℚ) (t : ℚ)
    (st : MidiState) (ch : ℕ) :
    replay ch (sounding st ch)
        (update_melody_hand "right" hy j av ea 48 4 t st).1
      = some (sounding
        (update_melody_hand "right" hy j av ea 48 4 t st).2 ch) := by
  by_cases hch : ch = 4
  · subst hch
    by_cases hj : j > JERK_THRESHOLD
    · cases hcn : st.melody_right_note with
      | none => simp [update_melody_hand, hj, hcn, replay, replayStep, sounding]
      | some m => simp [update_melody_hand, hj, hcn, replay, replayStep, sounding]
    · cases hcn : st.melody_right_note with
      | none => simp [update_melody_hand, hj, hcn, replay, replayStep, sounding]
      | some m =>
        by_cases ht : t - st.melody_right_note_time > base_note_duration
        · simp [update_melody_hand, hj, hcn, ht, replay, replayStep, sounding]
        · simp [update_melody_hand, hj, hcn, ht, replay, replayStep, sounding]
  · rw [replay_irrelevant _ _ _ fun e he => touches_false_of_channel_ne (by
      have h4 := melody_hand_channel "right" hy j av ea 48 4 t st e he
      omega)]
    refine congrArg some (sounding_congr _ _ _
      (melody_hand_chord_fields "right" hy j av ea 48 4 t st).2
      (fun h => absurd h hch)
      (fun _ => melody_hand_right_keeps_left hy j av ea 48 4 t st)).symm

theorem update_melody_hand_left_replay (hy j av ea : ℚ) (t : ℚ)
    (st : MidiState) (ch : ℕ) :
    replay ch (sounding st ch)
        (update_melody_hand "left" hy j av ea 72 5 t st).1
      = some (sounding
        (update_melody_hand "left" hy j av ea 72 5 t st).2 ch) := by
  by_cases hch : ch = 5
  · subst hch
    by_cases hj : j > JERK_THRESHOLD
    · cases hcn : st.melody_left_note with
      | none => simp [update_melody_hand, hj, hcn, replay, replayStep, sounding]
      | some m => simp [update_melody_hand, hj, hcn, replay, replayStep, sounding]
    · cases hcn : st.melody_left_note with
      | none => simp [update_melody_hand, hj, hcn, replay, replayStep, sounding]
      | some m =>
        by_cases ht : t - st.melody_left_note_time > base_note_duration
        · simp [update_melody_hand, hj, hcn, ht, replay, replayStep, sounding]
        · simp [update_melody_hand, hj, hcn, ht, replay, replayStep, sounding]
  · rw [replay_irrelevant _ _ _ fun e he => touches_false_of_channel_ne (by
      have h5 := melody_hand_channel "left" hy j av ea 72 5 t st e he
      omega)]
    refine congrArg some (sounding_congr _ _ _
      (melody_hand_chord_fields "left" hy j av ea 72 5 t st).2
      (fun _ => melody_hand_left_keeps_right hy j av ea 72 5 t st)
      (fun h => absurd h hch)).symm

theorem update_replay (f : List (String × ℚ)) (t : ℚ) (st : MidiState)
    (ch : ℕ) :
    replay ch (sounding st ch) (update f t st).1
      = some (sounding (update f t st).2 ch) := by
  have hdec : (update f t st).1 =
      (update_chords f st).1 ++
      ((update_melody_hand "right" (dget f "rightHandY" 0.5)
          (dget f "rightHandJerk" 0.0) (dget f "rightArmVelocity" 0.0)
          (dget f "rightElbowHipAngle" 0.0) 48 4 t (update_chords f st).2).1 ++
        ((update_melody_hand "left" (dget f "leftHandY" 0.5)
          (dget f "leftHandJerk" 0.0) (dget f "leftArmVelocity" 0.0)
          (dget f "leftElbowHipAngle" 0.0) 72 5 t
          (update_melody_hand "right" (dget f "rightHandY" 0.5)
            (dget f "rightHandJerk" 0.0) (dget f "rightArmVelocity" 0.0)
            (dget f "rightElbowHipAngle" 0.0) 48 4 t
            (update_chords f st).2).2).1 ++
          update_global_expression f)) := by
    have hdec0 : (update f t st).1 =
        ((update_chords f st).1 ++
          ((update_melody_hand "right" (dget f "rightHandY" 0.5)
            (dget f "rightHandJerk" 0.0) (dget f "rightArmVelocity" 0.0)
            (dget f "rightElbowHipAngle" 0.0) 48 4 t (update_chords f st).2).1 ++
          (update_melody_hand "left" (dget f "leftHandY" 0.5)
            (dget f "leftHandJerk" 0.0) (dget f "leftArmVelocity" 0.0)
            (dget f "leftElbowHipAngle" 0.0) 72 5 t
            (update_melody_hand "right" (dget f "rightHandY" 0.5)
              (dget f "rightHandJerk" 0.0) (dget f "rightArmVelocity" 0.0)
              (dget f "rightElbowHipAngle" 0.0) 48 4 t
              (update_chords f st).2).2).1)) ++
          update_global_expression f := rfl
    rw [hdec0, List.append_assoc, List.append_assoc]
  rw [hdec, replay_append, update_chords_replay]
  dsimp only
  rw [replay_append, update_melody_hand_right_replay]
  dsimp only
  rw [replay_append, update_melody_hand_left_replay]
  dsimp only
  rw [replay_global]
  rfl

theorem runUpdates_replay (inputs : List (List (String × ℚ) × ℚ))
    (st : MidiState) (ch : ℕ) :
    replay ch (sounding st ch) (runUpdates st inputs).1
      = some (sounding (runUpdates st inputs).2 ch) := by
  induction inputs generalizing st with
  | nil => rfl
  | cons p rest ih =>
    obtain ⟨f, t⟩ := p
    have hdec : (runUpdates st ((f, t) :: rest)).1 =
        (update f t st).1 ++ (runUpdates (update f t st).2 rest).1 := rfl
    have hdec2 : (runUpdates st ((f, t) :: rest)).2 =
        (runUpdates (update f t st).2 rest).2 := rfl
    rw [hdec, hdec2, replay_append, update_replay]
    exact ih (update f t st).2

theorem sounding_init (ch : ℕ) : sounding initMidiState ch = none := by
  simp only [sounding, initMidiState]
  split_ifs <;> rfl

/-- C2 counterexample.  A single `update` call on a fresh sender (default
features: feet at the centre, no jerk) emits the three chord note-ons and
no note-off at all, so these note-ons are never paired within the call
sequence: "eventually paired with exactly one note-off" fails as soon as
the sequence of calls stops while notes are sounding (and `close` sends
only CC 123, not per-note note-offs). -/
theorem c2_counterexample_unpaired_note_on :
    all_ons_paired (runUpdates initMidiState [([], 0)]).1 = false := by
  have hzone : get_chord_from_position
      (dget ([] : List (String × ℚ)) "feetCenterX" 0.5) = ChordName.V := by
    rw [show dget ([] : List (String × ℚ)) "feetCenterX" 0.5 = 0.5 from rfl]
    simp only [get_chord_from_position]
    rw [if_neg (by norm_num), if_neg (by norm_num), if_pos (by norm_num)]
  have hchg : some ChordName.V ≠ initMidiState.current_chord := by
    simp [initMidiState]
  have hchords1 : update_chords [] initMidiState =
      (List.zipWith (fun note ch => MidiEvent.note_on note
          (max 1 (min 127 (pyInt (40 + dget [] "kneeAngle" 1.0 * 87)))) ch)
        (chords ChordName.V) [1, 2, 3] ++
        apply_chord_expression (dget [] "hipTilt" 0.0) (dget [] "kneeAngle" 1.0),
       { current_chord := some ChordName.V,
         current_chord_notes := chords ChordName.V,
         melody_right_note := none,
         melody_left_note := none,
         melody_right_note_time := 0,
         melody_left_note_time := 0 }) := by
    simp only [update_chords, hzone]
    rw [if_pos hchg, if_pos (by simp [change_chord])]
    rfl
  have hjr : ¬(dget ([] : List (String × ℚ)) "rightHandJerk" 0.0
      > JERK_THRESHOLD) := by norm_num [dget, JERK_THRESHOLD]
  have hjl : ¬(dget ([] : List (String × ℚ)) "leftHandJerk" 0.0
      > JERK_THRESHOLD) := by norm_num [dget, JERK_THRESHOLD]
  have hmelR : update_melody_hand "right" (dget [] "rightHandY" 0.5)
      (dget [] "rightHandJerk" 0.0) (dget [] "rightArmVelocity" 0.0)
      (dget [] "rightElbowHipAngle" 0.0) 48 4 0
      { current_chord := some ChordName.V,
        current_chord_notes := chords ChordName.V,
        melody_right_note := none,
        melody_left_note := none,
        melody_right_note_time := 0,
        melody_left_note_time := 0 } =
      ([], { current_chord := some ChordName.V,
             current_chord_notes := chords ChordName.V,
             melody_right_note := none,
             melody_left_note := none,
             melody_right_note_time := 0,
             melody_left_note_time := 0 }) := by
    simp [update_melody_hand, hjr]
  have hmelL : update_melody_hand "left" (dget [] "leftHandY" 0.5)
      (dget [] "leftHandJerk" 0.0) (dget [] "leftArmVelocity" 0.0)
      (dget [] "leftElbowHipAngle" 0.0) 72 5 0
      { current_chord := some ChordName.V,
        current_chord_notes := chords ChordName.V,
        melody_right_note := none,
        melody_left_note := none,
        melody_right_note_time := 0,
        melody_left_note_time := 0 } =
      ([], { current_chord := some ChordName.V,
             current_chord_notes := chords ChordName.V,
             melody_right_note := none,
             melody_left_note := none,
             melody_right_note_time := 0,
             melody_left_note_time := 0 }) := by
    simp [update_melody_hand, hjl]
  have htrace : (runUpdates initMidiState [([], 0)]).1 =
      (update [] 0 initMidiState).1 ++ [] := rfl
  have hupd : (update [] 0 initMidiState).1 =
      (update_chords [] initMidiState).1 ++
      ((update_melody_hand "right" (dget [] "rightHandY" 0.5)
          (dget [] "rightHandJerk" 0.0) (dget [] "rightArmVelocity" 0.0)
          (dget [] "rightElbowHipAngle" 0.0) 48 4 0
          (update_chords [] initMidiState).2).1 ++
        (update_melody_hand "left" (dget [] "leftHandY" 0.5)
          (dget [] "leftHandJerk" 0.0) (dget [] "leftArmVelocity" 0.0)
          (dget [] "leftElbowHipAngle" 0.0) 72 5 0
          (update_melody_hand "right" (dget [] "rightHandY" 0.5)
            (dget [] "rightHandJerk" 0.0) (dget [] "rightArmVelocity" 0.0)
            (dget [] "rightElbowHipAngle" 0.0) 48 4 0
            (update_chords [] initMidiState).2).2).1) ++
      update_global_expression [] := rfl
  rw [htrace, List.append_nil, hupd, hchords1]
  dsimp only
  rw [hmelR]
  dsimp only
  rw [hmelL]
  dsimp only
  rfl

/-- C2, amended.  Over every sequence of `update` calls from a fresh sender,
the per-channel note protocol is well-bracketed: replaying each channel's
events never sees a second unmatched note-on (a chord change turns the old
triad off before the new one on, a melody trigger turns the hand's
sounding note off before the new note-on, the timeout branch turns the
sounding note off) and never sees a note-off for a note that is not the
one sounding there; the note left sounding on each channel after the whole
trace is exactly the one recorded in the final sender state.  A note-on is
therefore paired with at most one matching note-off, but only once a later
chord change, melody trigger or timeout reaches that channel — not
unconditionally, as the counterexample shows. -/
theorem c2_note_protocol_well_bracketed
    (inputs : List (List (String × ℚ) × ℚ)) (ch : ℕ) :
    replay ch none (runUpdates initMidiState inputs).1
      = some (sounding (runUpdates initMidiState inputs).2 ch) := by
  have h := runUpdates_replay inputs initMidiState ch
  rwa [sounding_init] at h
